import Mathlib

/-!
Shallow embedding of the scoring engine of the strategic political donation
platform (prototype3): the leverage-score calculator, the campaign-finance
record builder, the impact-score aggregator with its tier classifier, and the
party-based issue-position assigner.  Monetary amounts and scores are modelled
as rationals; nullable SQL columns and optional Python values as `Option`;
Python truthiness of numeric values (`x or d`) is modelled explicitly.
-/

/-- Python's built-in `min` on two numbers (the first argument wins ties). -/
def pymin (a b : ℚ) : ℚ := if a ≤ b then a else b

/-- Python's built-in `max` on two numbers (the first argument wins ties). -/
def pymax (a b : ℚ) : ℚ := if b ≤ a then a else b

/-- Python's built-in `abs` on a number. -/
def pyabs (a : ℚ) : ℚ := if a < 0 then -a else a

theorem pymin_eq_min (a b : ℚ) : pymin a b = min a b := by
  simp [pymin, min_def]

theorem pymax_eq_max (a b : ℚ) : pymax a b = max a b := by
  rw [pymax, max_def]
  by_cases hab : a ≤ b
  · by_cases hba : b ≤ a
    · simp [hab, hba, le_antisymm hba hab]
    · simp [hab, hba]
  · have hba : b ≤ a := le_of_not_le hab
    simp [hab, hba]

theorem pyabs_eq_abs (a : ℚ) : pyabs a = |a| := by
  rcases lt_or_le a 0 with h | h
  · simp [pyabs, h, abs_of_neg h]
  · simp [pyabs, not_lt.mpr h, abs_of_nonneg h]

/-- Rounding to two decimal places with ties going to the even hundredth,
modelling Python's `round(x, 2)` on the exact value. -/
def round2 (q : ℚ) : ℚ :=
  let x := 100 * q
  let f : ℤ := ⌊x⌋
  let r : ℚ := x - (f : ℚ)
  let n : ℤ :=
    if r < 1/2 then f
    else if 1/2 < r then f + 1
    else if f % 2 = 0 then f else f + 1
  (n : ℚ) / 100

/-- Breakpoint mapping from funding ratio to funding component
(scraper.py lines 386-395): strict `<` comparisons in ascending order. -/
def funding_component (funding_ratio : ℚ) : ℚ :=
  if funding_ratio < 1/2 then 90
  else if funding_ratio < 3/4 then 75
  else if funding_ratio < 1 then 60
  else if funding_ratio < 3/2 then 40
  else 20

/-- Embedding of `StrategicPoliticalScraper.calculate_leverage_score`
(scraper.py lines 364-404). -/
def calculate_leverage_score (candidate_receipts opponent_receipts : ℚ)
    (competitiveness : ℚ := 50) : ℚ :=
  if candidate_receipts ≤ 0 ∨ opponent_receipts ≤ 0 then 50
  else
    let funding_ratio := candidate_receipts / opponent_receipts
    let fc := funding_component funding_ratio
    let competitiveness_component := 100 - pyabs (competitiveness - 50) * 2
    let leverage_score := fc * (6/10) + competitiveness_component * (4/10)
    round2 (pymin 100 (pymax 0 leverage_score))

/-- Python truthiness-based default `x or d` for a possibly missing numeric
value: `None` and `0` are falsy and replaced by the default. -/
def pyOr (x : Option ℚ) (d : ℚ) : ℚ :=
  match x with
  | none => d
  | some v => if v = 0 then d else v

/-- Python truthiness of a possibly missing numeric value (`None` and `0`
are falsy). -/
def pyTruthy (x : Option ℚ) : Prop :=
  match x with
  | none => False
  | some v => v ≠ 0

instance (x : Option ℚ) : Decidable (pyTruthy x) := by
  unfold pyTruthy; exact match x with
  | none => inferInstanceAs (Decidable False)
  | some v => inferInstanceAs (Decidable (v ≠ 0))

/-- Relevant fields of the `financial_data` dictionary passed to
`insert_campaign_finance`; `none` models an absent key or a stored `None`. -/
structure FinData where
  receipts : Option ℚ
  disbursements : Option ℚ
  cash_on_hand_end_period : Option ℚ
  individual_contributions : Option ℚ

/-- Row of the `campaign_finance` table as persisted by
`insert_campaign_finance` (the fields the scoring pipeline reads). -/
structure FinanceRecord where
  candidate_id : ℕ
  total_receipts : ℚ
  total_disbursements : ℚ
  cash_on_hand : ℚ
  individual_contributions : ℚ
  opponent_total_receipts : Option ℚ
  funding_gap : Option ℚ
  funding_ratio : Option ℚ
  donation_leverage_score : Option ℚ
  small_dollar_percentage : ℚ
deriving DecidableEq

/-- Embedding of `StrategicPoliticalScraper.insert_campaign_finance`
(scraper.py lines 482-534).  Returns the persisted row together with a flag
recording whether `calculate_leverage_score` was invoked.  The guard
`if opponent_receipts and opponent_receipts > 0` combines Python truthiness
with the positivity check. -/
def insert_campaign_finance (candidate_id : ℕ) (financial_data : FinData)
    (opponent_receipts : Option ℚ := none) : FinanceRecord × Bool :=
  let receipts := pyOr financial_data.receipts 0
  let disbursements := pyOr financial_data.disbursements 0
  let cash_on_hand := pyOr financial_data.cash_on_hand_end_period 0
  let individual_contribs := pyOr financial_data.individual_contributions 0
  let small_dollar_pct : ℚ :=
    if 0 < receipts ∧ 0 < individual_contribs then (individual_contribs / receipts) * 100
    else 0
  let derived : Option ℚ × Option ℚ × Option ℚ × Bool :=
    if pyTruthy opponent_receipts ∧ 0 < (opponent_receipts.getD 0) then
      let o := opponent_receipts.getD 0
      (some (receipts - o),
       some (if 0 < o then receipts / o else 0),
       some (calculate_leverage_score receipts o),
       true)
    else (none, none, none, false)
  (⟨candidate_id, receipts, disbursements, cash_on_hand, individual_contribs,
    opponent_receipts, derived.1, derived.2.1, derived.2.2.1, small_dollar_pct⟩,
   derived.2.2.2)

/-- Tier classification of an overall impact score
(scraper.py lines 634-642): thresholds checked high to low, first match wins. -/
def recommendation_tier (overall_score : ℚ) : String :=
  if overall_score ≥ 75 then "High Impact"
  else if overall_score ≥ 60 then "Medium-High Impact"
  else if overall_score ≥ 45 then "Medium Impact"
  else "Lower Priority"

/-- One row of the query joining `race_candidates`, `candidates` and (left)
`campaign_finance` that feeds `calculate_impact_scores`; the finance columns
are `none` when no finance record exists or the stored column is NULL. -/
structure ImpactPair where
  race_id : ℕ
  candidate_id : ℕ
  donation_leverage_score : Option ℚ
  small_dollar_percentage : Option ℚ
  incumbent : Bool
deriving DecidableEq

/-- Row of the `impact_scores` table. -/
structure ImpactRow where
  candidate_id : ℕ
  race_id : ℕ
  competitiveness_score : ℚ
  funding_leverage_score : ℚ
  control_impact_score : ℚ
  grassroots_potential_score : ℚ
  overall_impact_score : ℚ
  recommendation_tier : String
deriving DecidableEq

/-- Per-pair computation of `calculate_impact_scores`
(scraper.py lines 609-642): defaults via Python `or`, constant
competitiveness 50, control base 60 with +10 challenger bonus, grassroots
`min(100, small_dollar_pct * 2)`, and the 0.3/0.35/0.20/0.15 weighting. -/
def impact_row (p : ImpactPair) : ImpactRow :=
  let leverage := pyOr p.donation_leverage_score 50
  let small_dollar_pct := pyOr p.small_dollar_percentage 30
  let competitiveness_score : ℚ := 50
  let funding_leverage_score := leverage
  let control_impact_score : ℚ := (60 : ℚ) + (if p.incumbent then 0 else 10)
  let grassroots_potential := pymin 100 (small_dollar_pct * 2)
  let overall_score :=
    competitiveness_score * (3/10) + funding_leverage_score * (35/100) +
    control_impact_score * (20/100) + grassroots_potential * (15/100)
  ⟨p.candidate_id, p.race_id, competitiveness_score, funding_leverage_score,
   control_impact_score, grassroots_potential, overall_score,
   recommendation_tier overall_score⟩

/-- Key of the `UNIQUE(candidate_id, race_id)` constraint on `impact_scores`. -/
def rowKey (r : ImpactRow) : ℕ × ℕ := (r.candidate_id, r.race_id)

/-- SQLite `INSERT OR REPLACE` on `impact_scores`: the row conflicting on
`(candidate_id, race_id)` is deleted and the new row inserted. -/
def upsert (t : List ImpactRow) (r : ImpactRow) : List ImpactRow :=
  t.filter (fun x => rowKey x ≠ rowKey r) ++ [r]

/-- Embedding of the persistence loop of
`StrategicPoliticalScraper.calculate_impact_scores`
(scraper.py lines 609-658): each queried pair's computed row is upserted in
order into the `impact_scores` table. -/
def calculate_impact_scores : List ImpactPair → List ImpactRow → List ImpactRow
  | [], t => t
  | p :: ps, t => calculate_impact_scores ps (upsert t (impact_row p))

/-- Whether the character list `hay` starts with the character list `needle`. -/
def charsStartWith : List Char → List Char → Bool
  | [], _ => true
  | _ :: _, [] => false
  | a :: as, b :: bs => a == b && charsStartWith as bs

/-- Whether the character list `needle` occurs contiguously in `hay`. -/
def charsContain (needle : List Char) : List Char → Bool
  | [] => needle.isEmpty
  | b :: t => charsStartWith needle (b :: t) || charsContain needle t

/-- Python's substring test `needle in hay`. -/
def strContainsSub (hay needle : String) : Bool :=
  charsContain needle.data hay.data

/-- Uppercasing of a party label, modelling `party.upper()` on the ASCII
labels the scraper handles. -/
def pyUpper (s : String) : String :=
  ⟨s.data.map Char.toUpper⟩

/-- Position of the first occurrence of `x` in `l`, modelling Python's
`list.index` at arguments where the element is present. -/
def idxOf (x : String) : List String → ℕ
  | [] => 0
  | a :: as => if a = x then 0 else idxOf x as + 1

/-- Democratic issue-priority list of `assign_candidate_issues`
(scraper.py lines 547-550). -/
def democratic_priorities : List String :=
  ["Climate Change", "Healthcare Access", "Economic Justice",
   "Reproductive Rights", "LGBTQ+ Rights", "Voting Rights"]

/-- Republican issue-priority list of `assign_candidate_issues`
(scraper.py lines 552-555). -/
def republican_priorities : List String :=
  ["Crime & Safety", "Immigration Reform", "Economic Justice",
   "Gun Control", "Foreign Policy"]

/-- Row inserted into `candidate_issues` by `assign_candidate_issues`. -/
structure IssuePosition where
  candidate_id : ℕ
  issue_id : ℕ
  position : String
  strength : String
  priority : ℕ
deriving DecidableEq

/-- Embedding of `StrategicPoliticalScraper.assign_candidate_issues`
(scraper.py lines 536-588): the catalog is the list of `(id, name)` rows of
the `issues` table, and the result lists the rows inserted into
`candidate_issues` in loop order. -/
def assign_candidate_issues (candidate_id : ℕ) (issues : List (ℕ × String))
    (party : String) : List IssuePosition :=
  issues.filterMap (fun issue =>
    let issue_id := issue.1
    let issue_name := issue.2
    if strContainsSub (pyUpper party) "DEMOCRATIC" then
      if issue_name ∈ democratic_priorities then
        some ⟨candidate_id, issue_id, "Support", "Strong",
              idxOf issue_name democratic_priorities + 1⟩
      else none
    else if strContainsSub (pyUpper party) "REPUBLICAN" then
      if issue_name ∈ republican_priorities then
        some ⟨candidate_id, issue_id, "Support", "Strong",
              idxOf issue_name republican_priorities + 1⟩
      else none
    else none)

/-- The per-candidate finance step of `scrape_all_data`
(scraper.py lines 733-736 and 776-779): for each candidate whose financial
totals were fetched, `insert_campaign_finance` is called with no
`opponent_receipts` argument, so the default `None` applies. -/
def scrape_all_data_finance (cands : List (ℕ × Option FinData)) :
    List (FinanceRecord × Bool) :=
  cands.filterMap (fun c => c.2.map (fun fd => insert_campaign_finance c.1 fd))

/-- Division that is evaluated only behind a strict-positivity check of the
denominator; `none` signals that an unguarded division would have happened. -/
def guardedDiv (a b : ℚ) : Option ℚ :=
  if 0 < b then some (a / b) else none

/-- Variant of `calculate_leverage_score` in which the funding-ratio division
is routed through `guardedDiv`, recording whether the code ever divides
without having established a strictly positive denominator. -/
def calculate_leverage_score_guarded (candidate_receipts opponent_receipts : ℚ)
    (competitiveness : ℚ := 50) : Option ℚ :=
  if candidate_receipts ≤ 0 ∨ opponent_receipts ≤ 0 then some 50
  else
    (guardedDiv candidate_receipts opponent_receipts).map (fun funding_ratio =>
      round2 (pymin 100 (pymax 0 (funding_component funding_ratio * (6/10) +
        (100 - pyabs (competitiveness - 50) * 2) * (4/10)))))

/-- Variant of `insert_campaign_finance` in which every ratio computation
(small-dollar percentage, funding ratio, and the leverage score's internal
ratio) is routed through `guardedDiv`. -/
def insert_campaign_finance_guarded (candidate_id : ℕ) (financial_data : FinData)
    (opponent_receipts : Option ℚ := none) : Option (FinanceRecord × Bool) :=
  let receipts := pyOr financial_data.receipts 0
  let disbursements := pyOr financial_data.disbursements 0
  let cash_on_hand := pyOr financial_data.cash_on_hand_end_period 0
  let individual_contribs := pyOr financial_data.individual_contributions 0
  let small_dollar_pct? : Option ℚ :=
    if 0 < receipts ∧ 0 < individual_contribs then
      (guardedDiv individual_contribs receipts).map (· * 100)
    else some 0
  let derived? : Option (Option ℚ × Option ℚ × Option ℚ × Bool) :=
    if pyTruthy opponent_receipts ∧ 0 < (opponent_receipts.getD 0) then
      let o := opponent_receipts.getD 0
      (if 0 < o then guardedDiv receipts o else some 0).bind (fun ratio =>
        (calculate_leverage_score_guarded receipts o).map (fun lev =>
          (some (receipts - o), some ratio, some lev, true)))
    else some (none, none, none, false)
  small_dollar_pct?.bind (fun small_dollar_pct =>
    derived?.map (fun derived =>
      (⟨candidate_id, receipts, disbursements, cash_on_hand, individual_contribs,
        opponent_receipts, derived.1, derived.2.1, derived.2.2.1, small_dollar_pct⟩,
       derived.2.2.2)))

theorem pyOr_zero (x : Option ℚ) : pyOr x 0 = x.getD 0 := by
  match x with
  | none => rfl
  | some v => by_cases h : v = 0 <;> simp [pyOr, h]

theorem round2_bounds (q : ℚ) (h0 : 0 ≤ q) (h1 : q ≤ 100) :
    0 ≤ round2 q ∧ round2 q ≤ 100 := by
  have hx0 : (0:ℚ) ≤ 100 * q := by linarith
  have hx1 : 100 * q ≤ 10000 := by linarith
  have hf0 : (0:ℤ) ≤ ⌊100 * q⌋ := Int.floor_nonneg.mpr hx0
  have hfle : (↑⌊100 * q⌋ : ℚ) ≤ 100 * q := Int.floor_le _
  have hlt : 100 * q < ↑⌊100 * q⌋ + 1 := Int.lt_floor_add_one _
  simp only [round2]
  split_ifs with hb1 hb2 hb3
  · constructor
    · positivity
    · rw [div_le_iff₀ (by norm_num : (0:ℚ) < 100)]
      calc (↑⌊100 * q⌋ : ℚ) ≤ 100 * q := hfle
        _ ≤ 100 * 100 := by linarith
  · have hfq : (↑⌊100 * q⌋ : ℚ) < ((10000 : ℤ) : ℚ) := by push_cast; linarith
    have hfz : ⌊100 * q⌋ + 1 ≤ 10000 := by
      have : ⌊100 * q⌋ < (10000 : ℤ) := by exact_mod_cast hfq
      omega
    constructor
    · have : (0:ℤ) ≤ ⌊100 * q⌋ + 1 := by omega
      have : (0:ℚ) ≤ ((⌊100 * q⌋ + 1 : ℤ) : ℚ) := by exact_mod_cast this
      positivity
    · rw [div_le_iff₀ (by norm_num : (0:ℚ) < 100)]
      have : ((⌊100 * q⌋ + 1 : ℤ) : ℚ) ≤ 10000 := by exact_mod_cast hfz
      push_cast at this ⊢
      linarith
  · constructor
    · positivity
    · rw [div_le_iff₀ (by norm_num : (0:ℚ) < 100)]
      calc (↑⌊100 * q⌋ : ℚ) ≤ 100 * q := hfle
        _ ≤ 100 * 100 := by linarith
  · have hr : 100 * q - ↑⌊100 * q⌋ = 1/2 := le_antisymm (not_lt.mp hb2) (not_lt.mp hb1)
    have hfq : (↑⌊100 * q⌋ : ℚ) < ((10000 : ℤ) : ℚ) := by push_cast; linarith
    have hfz : ⌊100 * q⌋ + 1 ≤ 10000 := by
      have : ⌊100 * q⌋ < (10000 : ℤ) := by exact_mod_cast hfq
      omega
    constructor
    · have h' : (0:ℤ) ≤ ⌊100 * q⌋ + 1 := by omega
      have h'' : (0:ℚ) ≤ ((⌊100 * q⌋ + 1 : ℤ) : ℚ) := by exact_mod_cast h'
      positivity
    · rw [div_le_iff₀ (by norm_num : (0:ℚ) < 100)]
      have : ((⌊100 * q⌋ + 1 : ℤ) : ℚ) ≤ 10000 := by exact_mod_cast hfz
      push_cast at this ⊢
      linarith

/-- Rendering of the leverage formula exactly as the specification words it:
neutral 50 on non-positive receipts, otherwise the rounded, clamped weighted
sum of the bucketed funding component and the competitiveness component,
with the buckets chosen by ascending strictly-less-than breakpoints. -/
def leverage_score_spec (R O C : ℚ) : ℚ :=
  if R ≤ 0 ∨ O ≤ 0 then 50
  else
    let ratio := R / O
    let fc : ℚ :=
      if ratio < 1/2 then 90
      else if ratio < 3/4 then 75
      else if ratio < 1 then 60
      else if ratio < 3/2 then 40
      else 20
    round2 (min 100 (max 0 (fc * (6/10) + (100 - |C - 50| * 2) * (4/10))))

/-- C1: for receipts `R`, `O` and competitiveness `C ∈ [0,100]`,
`calculate_leverage_score` returns 50 when `R ≤ 0` or `O ≤ 0`, and otherwise
the rounded clamp of `fc*0.6 + (100 - |C-50|*2)*0.4` with `fc` selected from
`R/O` by ascending strictly-less-than breakpoints; a ratio exactly at a
breakpoint falls into the lower-scoring bucket, so in particular
`calculate_leverage_score 100 100 50 = 64`. -/
theorem leverage_score_matches_spec (R O C : ℚ) (hC0 : 0 ≤ C) (hC1 : C ≤ 100) :
    calculate_leverage_score R O C = leverage_score_spec R O C ∧
    ((R ≤ 0 ∨ O ≤ 0) → calculate_leverage_score R O C = 50) ∧
    calculate_leverage_score 100 100 50 = 64 := by
  refine ⟨?_, ?_, ?_⟩
  · simp only [calculate_leverage_score, leverage_score_spec, funding_component,
      pymin_eq_min, pymax_eq_max, pyabs_eq_abs]
  · intro h
    simp [calculate_leverage_score, h]
  · norm_num [calculate_leverage_score, funding_component, round2, pymin, pymax, pyabs]

theorem leverage_score_matches_spec_witness :
    calculate_leverage_score 100 1000 50 = leverage_score_spec 100 1000 50 :=
  (leverage_score_matches_spec 100 1000 50 (by norm_num) (by norm_num)).1

/-- C2: every persisted overall impact score is the 0.30/0.35/0.20/0.15
weighted sum of the four component scores, with competitiveness the constant
50 and control impact 60 plus 10 exactly for non-incumbents; in particular a
non-incumbent with leverage 80 and small-dollar percentage 50 scores 72.0 in
tier "Medium-High Impact". -/
theorem overall_impact_weighting :
    (∀ p : ImpactPair,
      (impact_row p).overall_impact_score =
        (impact_row p).competitiveness_score * (30/100) +
        (impact_row p).funding_leverage_score * (35/100) +
        (impact_row p).control_impact_score * (20/100) +
        (impact_row p).grassroots_potential_score * (15/100) ∧
      (impact_row p).competitiveness_score = 50 ∧
      (impact_row p).control_impact_score =
        60 + (if p.incumbent then 0 else 10)) ∧
    (impact_row ⟨1, 2, some 80, some 50, false⟩).overall_impact_score = 72 ∧
    (impact_row ⟨1, 2, some 80, some 50, false⟩).recommendation_tier =
      "Medium-High Impact" := by
  refine ⟨fun p => ⟨?_, rfl, rfl⟩, ?_, ?_⟩
  · simp only [impact_row]
    ring
  · norm_num [impact_row, pyOr, pymin]
  · norm_num [impact_row, pyOr, pymin, recommendation_tier]

/-- C3 counterexample: for a pair with no finance record the claim predicts
`grassroots_potential_score = min(100, 0 * 2) = 0`, but the code defaults the
unknown small-dollar percentage to 30 (`or 30`), yielding 60. -/
theorem grassroots_default_counterexample :
    (impact_row ⟨1, 2, none, none, true⟩).grassroots_potential_score = 60 ∧
    (impact_row ⟨1, 2, none, none, true⟩).grassroots_potential_score ≠
      min 100 ((0 : ℚ) * 2) := by
  constructor
  · norm_num [impact_row, pyOr, pymin]
  · norm_num [impact_row, pyOr, pymin]

/-- C3 amended: `grassroots_potential_score = min(100, small_dollar_percentage
* 2)` where the small-dollar percentage is taken as 30 when it is unknown (no
finance record or NULL column) and also when the stored value is 0 (Python
`or` treats 0 as falsy). -/
theorem grassroots_score_amended (p : ImpactPair) :
    (impact_row p).grassroots_potential_score =
      min 100 ((match p.small_dollar_percentage with
                | none => 30
                | some v => if v = 0 then 30 else v) * 2) := by
  simp only [impact_row, pymin_eq_min, pyOr]

theorem grassroots_score_amended_witness :
    (impact_row ⟨1, 2, none, some 40, true⟩).grassroots_potential_score =
      min 100 ((match (some (40:ℚ) : Option ℚ) with
                | none => 30
                | some v => if v = 0 then 30 else v) * 2) :=
  grassroots_score_amended ⟨1, 2, none, some 40, true⟩

/-- C4 counterexample: with candidate receipts 0 and opponent receipts 1000
the stored leverage score is 50.0, hence non-null although the candidate's
receipts are not strictly positive; and with the opponent's receipts missing
the stored value is NULL, not the neutral 50. -/
theorem leverage_nullability_counterexample :
    (insert_campaign_finance 1 ⟨some 0, none, none, none⟩
        (some 1000)).1.total_receipts = 0 ∧
    (insert_campaign_finance 1 ⟨some 0, none, none, none⟩
        (some 1000)).1.donation_leverage_score = some 50 ∧
    (insert_campaign_finance 1 ⟨some 100, none, none, none⟩
        none).1.donation_leverage_score = none := by
  refine ⟨?_, ?_, ?_⟩
  · norm_num [insert_campaign_finance, pyOr]
  · norm_num [insert_campaign_finance, pyOr, pyTruthy, calculate_leverage_score]
  · norm_num [insert_campaign_finance, pyOr, pyTruthy]

/-- C4 amended: the stored `donation_leverage_score` is non-null exactly when
the opponent's receipts are supplied and strictly positive; in that case it
equals `calculate_leverage_score(receipts, opponent, 50)`, which is the
neutral midpoint 50 whenever the candidate's receipts are non-positive, and
when the opponent's receipts are missing or non-positive the stored value is
NULL. -/
theorem leverage_nullability_amended (cid : ℕ) (fd : FinData) (opp : Option ℚ) :
    ((insert_campaign_finance cid fd opp).1.donation_leverage_score ≠ none ↔
      ∃ o : ℚ, opp = some o ∧ 0 < o) ∧
    (∀ o : ℚ, opp = some o → 0 < o →
      (insert_campaign_finance cid fd opp).1.donation_leverage_score =
        some (calculate_leverage_score (pyOr fd.receipts 0) o)) ∧
    (∀ o : ℚ, opp = some o → 0 < o → pyOr fd.receipts 0 ≤ 0 →
      (insert_campaign_finance cid fd opp).1.donation_leverage_score =
        some 50) := by
  refine ⟨?_, ?_, ?_⟩
  · constructor
    · intro h
      by_cases hg : pyTruthy opp ∧ 0 < opp.getD 0
      · match opp, hg with
        | some o, ⟨_, ho⟩ => exact ⟨o, rfl, by simpa using ho⟩
      · exact absurd (by simp [insert_campaign_finance, if_neg hg]) h
    · rintro ⟨o, rfl, ho⟩
      simp [insert_campaign_finance, pyTruthy, ho, ho.ne']
  · rintro o rfl ho
    simp [insert_campaign_finance, pyTruthy, ho, ho.ne']
  · rintro o rfl ho hr
    simp [insert_campaign_finance, pyTruthy, ho, ho.ne',
      calculate_leverage_score, Or.inl hr]

theorem leverage_nullability_amended_witness :
    (insert_campaign_finance 1 ⟨some 0, none, none, none⟩
        (some 1000)).1.donation_leverage_score = some 50 :=
  (leverage_nullability_amended 1 ⟨some 0, none, none, none⟩ (some 1000)).2.2
    1000 rfl (by norm_num) (by norm_num [pyOr])

/-- C5: the recommendation tier is a pure function of the overall impact
score alone, with thresholds evaluated high to low and closed on their lower
bounds: 75.0 is "High Impact", 60.0 is "Medium-High Impact", 45.0 is
"Medium Impact", anything below is "Lower Priority"; and the tier persisted
by the aggregator is exactly this function of the persisted overall score. -/
theorem tier_thresholds :
    (∀ s : ℚ,
      (recommendation_tier s = "High Impact" ↔ 75 ≤ s) ∧
      (recommendation_tier s = "Medium-High Impact" ↔ 60 ≤ s ∧ s < 75) ∧
      (recommendation_tier s = "Medium Impact" ↔ 45 ≤ s ∧ s < 60) ∧
      (recommendation_tier s = "Lower Priority" ↔ s < 45)) ∧
    (∀ p : ImpactPair,
      (impact_row p).recommendation_tier =
        recommendation_tier ((impact_row p).overall_impact_score)) ∧
    recommendation_tier 75 = "High Impact" ∧
    recommendation_tier 60 = "Medium-High Impact" ∧
    recommendation_tier 45 = "Medium Impact" := by
  refine ⟨?_, fun p => rfl, ?_, ?_, ?_⟩
  · intro s
    unfold recommendation_tier
    split_ifs with h1 h2 h3
    · exact ⟨iff_of_true rfl h1,
             iff_of_false (by decide) (fun hh => absurd hh.2 (not_lt.mpr h1)),
             iff_of_false (by decide)
               (fun hh => absurd hh.2 (not_lt.mpr ((by norm_num : (60:ℚ) ≤ 75).trans h1))),
             iff_of_false (by decide)
               (fun hh => absurd hh (not_lt.mpr ((by norm_num : (45:ℚ) ≤ 75).trans h1)))⟩
    · exact ⟨iff_of_false (by decide) h1,
             iff_of_true rfl ⟨h2, lt_of_not_le h1⟩,
             iff_of_false (by decide) (fun hh => absurd hh.2 (not_lt.mpr h2)),
             iff_of_false (by decide)
               (fun hh => absurd hh (not_lt.mpr ((by norm_num : (45:ℚ) ≤ 60).trans h2)))⟩
    · exact ⟨iff_of_false (by decide) h1,
             iff_of_false (by decide) (fun hh => h2 hh.1),
             iff_of_true rfl ⟨h3, lt_of_not_le h2⟩,
             iff_of_false (by decide) (fun hh => absurd hh (not_lt.mpr h3))⟩
    · exact ⟨iff_of_false (by decide) h1,
             iff_of_false (by decide) (fun hh => h2 hh.1),
             iff_of_false (by decide) (fun hh => h3 hh.1),
             iff_of_true rfl (lt_of_not_le h3)⟩
  · norm_num [recommendation_tier]
  · norm_num [recommendation_tier]
  · norm_num [recommendation_tier]

/-- C6: the leverage score lies in [0,100] for positive receipts and
competitiveness in [0,100]; and, provided every stored leverage score is in
[0,100] and every stored small-dollar percentage is non-negative, all four
component scores and the overall score written by the aggregator lie in
[0,100]. -/
theorem scores_bounded :
    (∀ R O C : ℚ, 0 < R → 0 < O → 0 ≤ C → C ≤ 100 →
      0 ≤ calculate_leverage_score R O C ∧
      calculate_leverage_score R O C ≤ 100) ∧
    (∀ p : ImpactPair,
      (∀ v : ℚ, p.donation_leverage_score = some v → 0 ≤ v ∧ v ≤ 100) →
      (∀ v : ℚ, p.small_dollar_percentage = some v → 0 ≤ v) →
      (0 ≤ (impact_row p).competitiveness_score ∧
        (impact_row p).competitiveness_score ≤ 100) ∧
      (0 ≤ (impact_row p).funding_leverage_score ∧
        (impact_row p).funding_leverage_score ≤ 100) ∧
      (0 ≤ (impact_row p).control_impact_score ∧
        (impact_row p).control_impact_score ≤ 100) ∧
      (0 ≤ (impact_row p).grassroots_potential_score ∧
        (impact_row p).grassroots_potential_score ≤ 100) ∧
      (0 ≤ (impact_row p).overall_impact_score ∧
        (impact_row p).overall_impact_score ≤ 100)) := by
  constructor
  · intro R O C hR hO hC0 hC1
    by_cases hg : R ≤ 0 ∨ O ≤ 0
    · simp [calculate_leverage_score, hg]
      norm_num
    · simp only [calculate_leverage_score, if_neg hg, pymin_eq_min, pymax_eq_max]
      exact round2_bounds _
        (le_min (by norm_num) (le_max_left 0 _))
        (min_le_left 100 _)
  · intro p hlev hsd
    have hl : 0 ≤ pyOr p.donation_leverage_score 50 ∧
        pyOr p.donation_leverage_score 50 ≤ 100 := by
      match hp : p.donation_leverage_score with
      | none => norm_num [pyOr]
      | some v =>
        by_cases hv : v = 0
        · norm_num [pyOr, hv]
        · simpa [pyOr, hv] using hlev v hp
    have hs : 0 ≤ pyOr p.small_dollar_percentage 30 := by
      match hp : p.small_dollar_percentage with
      | none => simp [pyOr]
      | some v =>
        by_cases hv : v = 0
        · simp [pyOr, hv]
        · simpa [pyOr, hv] using hsd v hp
    have hgr : 0 ≤ pymin 100 (pyOr p.small_dollar_percentage 30 * 2) ∧
        pymin 100 (pyOr p.small_dollar_percentage 30 * 2) ≤ 100 := by
      rw [pymin_eq_min]
      exact ⟨le_min (by norm_num) (by positivity), min_le_left 100 _⟩
    have hctl : 0 ≤ (60 : ℚ) + (if p.incumbent then 0 else 10) ∧
        (60 : ℚ) + (if p.incumbent then 0 else 10) ≤ 100 := by
      cases p.incumbent <;> norm_num
    simp only [impact_row]
    refine ⟨by norm_num, hl, hctl, hgr, ?_, ?_⟩
    · have h1 := hl.1
      have h2 := hctl.1
      have h3 := hgr.1
      linarith
    · have h1 := hl.2
      have h2 := hctl.2
      have h3 := hgr.2
      linarith

theorem scores_bounded_witness :
    (0 ≤ calculate_leverage_score 100 1000 50 ∧
      calculate_leverage_score 100 1000 50 ≤ 100) ∧
    (0 ≤ (impact_row ⟨1, 2, some 80, some 50, false⟩).overall_impact_score ∧
      (impact_row ⟨1, 2, some 80, some 50, false⟩).overall_impact_score ≤ 100) :=
  ⟨scores_bounded.1 100 1000 50 (by norm_num) (by norm_num) (by norm_num)
      (by norm_num),
   (scores_bounded.2 ⟨1, 2, some 80, some 50, false⟩
      (fun v hv => by
        simp only [Option.some.injEq] at hv
        subst hv; norm_num)
      (fun v hv => by
        simp only [Option.some.injEq] at hv
        subst hv; norm_num)).2.2.2.2⟩

/-- Insertions the specification predicts for one party priority list: each
catalog issue on the list gets a Support/Strong position with priority equal
to its 1-based rank in the list, and no other issue is inserted. -/
def party_list_inserts (candidate_id : ℕ) (issues : List (ℕ × String))
    (priorities : List String) : List IssuePosition :=
  issues.filterMap (fun issue =>
    if issue.2 ∈ priorities then
      some ⟨candidate_id, issue.1, "Support", "Strong",
            idxOf issue.2 priorities + 1⟩
    else none)

/-- C7 counterexample: the party label "DEMOCRATIC-REPUBLICAN" contains the
substring "REPUBLICAN", so the claim predicts the Republican-list insertions
— here, a rank-1 position for "Crime & Safety" — but the code's Democratic
branch takes precedence and, since "Crime & Safety" is not a Democratic
priority, nothing at all is inserted. -/
theorem issue_assignment_counterexample :
    strContainsSub (pyUpper "DEMOCRATIC-REPUBLICAN") "REPUBLICAN" = true ∧
    assign_candidate_issues 7 [(1, "Crime & Safety")] "DEMOCRATIC-REPUBLICAN"
      = [] ∧
    party_list_inserts 7 [(1, "Crime & Safety")] republican_priorities
      = [⟨7, 1, "Support", "Strong", 1⟩] := by
  refine ⟨by decide, by decide, by decide⟩

/-- C7 amended: a party label containing "DEMOCRATIC" (uppercased) receives
exactly the Democratic-list insertions; a label containing "REPUBLICAN" but
NOT "DEMOCRATIC" receives exactly the Republican-list insertions (the
Democratic branch takes precedence when both substrings occur); a label
containing neither receives no insertions. -/
theorem issue_assignment_amended (cid : ℕ) (issues : List (ℕ × String))
    (party : String) :
    (strContainsSub (pyUpper party) "DEMOCRATIC" = true →
      assign_candidate_issues cid issues party =
        party_list_inserts cid issues democratic_priorities) ∧
    (strContainsSub (pyUpper party) "DEMOCRATIC" = false →
      strContainsSub (pyUpper party) "REPUBLICAN" = true →
      assign_candidate_issues cid issues party =
        party_list_inserts cid issues republican_priorities) ∧
    (strContainsSub (pyUpper party) "DEMOCRATIC" = false →
      strContainsSub (pyUpper party) "REPUBLICAN" = false →
      assign_candidate_issues cid issues party = []) := by
  refine ⟨?_, ?_, ?_⟩
  · intro hd
    simp [assign_candidate_issues, party_list_inserts, hd]
  · intro hd hr
    simp [assign_candidate_issues, party_list_inserts, hd, hr]
  · intro hd hr
    simp [assign_candidate_issues, List.filterMap_eq_nil_iff, hd, hr]

theorem issue_assignment_amended_witness :
    assign_candidate_issues 7 [(1, "Climate Change"), (2, "Gun Control")]
      "Democratic Party" =
      party_list_inserts 7 [(1, "Climate Change"), (2, "Gun Control")]
        democratic_priorities :=
  (issue_assignment_amended 7 [(1, "Climate Change"), (2, "Gun Control")]
    "Democratic Party").1 (by decide)

/-- Keys `(candidate_id, race_id)` of the pairs a run of the aggregator
processes. -/
def pairKeys (pairs : List ImpactPair) : List (ℕ × ℕ) :=
  pairs.map (fun p => (p.candidate_id, p.race_id))

/-- Removal of every row whose key occurs in `ks` (the cumulative effect of
the per-row deletions performed by `INSERT OR REPLACE`). -/
def dropKeys (ks : List (ℕ × ℕ)) (t : List ImpactRow) : List ImpactRow :=
  t.filter (fun x => rowKey x ∉ ks)

theorem rowKey_impact_row (p : ImpactPair) :
    rowKey (impact_row p) = (p.candidate_id, p.race_id) := rfl

theorem calc_decomp (pairs : List ImpactPair) (t : List ImpactRow) :
    calculate_impact_scores pairs t =
      dropKeys (pairKeys pairs) t ++ calculate_impact_scores pairs [] := by
  induction pairs generalizing t with
  | nil => simp [calculate_impact_scores, dropKeys, pairKeys]
  | cons p ps ih =>
      show calculate_impact_scores ps (upsert t (impact_row p)) = _
      rw [ih (upsert t (impact_row p)),
        show calculate_impact_scores (p :: ps) [] =
          calculate_impact_scores ps [impact_row p] from rfl,
        ih [impact_row p], ← List.append_assoc]
      congr 1
      simp only [upsert, dropKeys, List.filter_append, List.filter_filter]
      congr 1
      apply List.filter_congr
      intro x _
      rw [rowKey_impact_row]
      simp [pairKeys, List.mem_cons, not_or, Bool.and_comm]

theorem rowKey_mem_calc (pairs : List ImpactPair) (t : List ImpactRow)
    (x : ImpactRow) (hx : x ∈ calculate_impact_scores pairs t) :
    rowKey x ∈ t.map rowKey ∨ rowKey x ∈ pairKeys pairs := by
  induction pairs generalizing t with
  | nil =>
      exact Or.inl (List.mem_map_of_mem rowKey hx)
  | cons p ps ih =>
      rcases ih (upsert t (impact_row p)) hx with h | h
      · simp only [upsert, List.map_append, List.mem_append] at h
        rcases h with h | h
        · rcases List.mem_map.mp h with ⟨y, hy, hk⟩
          exact Or.inl (hk ▸ List.mem_map_of_mem rowKey (List.mem_of_mem_filter hy))
        · simp only [List.map_cons, List.map_nil, List.mem_singleton] at h
          exact Or.inr (by simp [pairKeys, h, rowKey_impact_row])
      · exact Or.inr (by simp [pairKeys] at h ⊢; exact Or.inr h)

theorem dropKeys_calc_nil (pairs : List ImpactPair) :
    dropKeys (pairKeys pairs) (calculate_impact_scores pairs []) = [] := by
  rw [dropKeys, List.filter_eq_nil_iff]
  intro x hx
  rcases rowKey_mem_calc pairs [] x hx with h | h
  · simp at h
  · simp [h]

theorem upsert_nodup (t : List ImpactRow) (r : ImpactRow)
    (h : (t.map rowKey).Nodup) : ((upsert t r).map rowKey).Nodup := by
  simp only [upsert, List.map_append, List.map_cons, List.map_nil]
  rw [List.nodup_append]
  refine ⟨((List.filter_sublist t).map rowKey).nodup h, List.nodup_singleton _, ?_⟩
  intro k hk hk'
  simp only [List.mem_singleton] at hk'
  rcases List.mem_map.mp hk with ⟨y, hy, hky⟩
  have := List.of_mem_filter hy
  simp only [decide_not, Bool.not_eq_true', decide_eq_false_iff_not] at this
  exact this (hky.trans hk')

theorem calc_nodup (pairs : List ImpactPair) (t : List ImpactRow)
    (h : (t.map rowKey).Nodup) :
    ((calculate_impact_scores pairs t).map rowKey).Nodup := by
  induction pairs generalizing t with
  | nil => exact h
  | cons p ps ih => exact ih _ (upsert_nodup t (impact_row p) h)

theorem mem_keys_upsert (t : List ImpactRow) (r : ImpactRow) (k : ℕ × ℕ)
    (h : k ∈ t.map rowKey) : k ∈ (upsert t r).map rowKey := by
  by_cases hk : k = rowKey r
  · simp [upsert, hk]
  · rcases List.mem_map.mp h with ⟨y, hy, hky⟩
    refine List.mem_map.mpr ⟨y, ?_, hky⟩
    simp only [upsert, List.mem_append]
    exact Or.inl (List.mem_filter.mpr ⟨hy, by simp [hky, hk]⟩)

theorem mem_keys_calc_mono (pairs : List ImpactPair) (t : List ImpactRow)
    (k : ℕ × ℕ) (h : k ∈ t.map rowKey) :
    k ∈ (calculate_impact_scores pairs t).map rowKey := by
  induction pairs generalizing t with
  | nil => exact h
  | cons p ps ih => exact ih _ (mem_keys_upsert t (impact_row p) k h)

theorem pair_key_mem_calc (pairs : List ImpactPair) (t : List ImpactRow) :
    ∀ p ∈ pairs, (p.candidate_id, p.race_id) ∈
      (calculate_impact_scores pairs t).map rowKey := by
  induction pairs generalizing t with
  | nil => intro p hp; cases hp
  | cons q qs ih =>
      intro p hp
      rcases List.mem_cons.mp hp with rfl | hp'
      · refine mem_keys_calc_mono qs _ _ ?_
        simp [upsert, rowKey_impact_row]
      · exact ih _ p hp'

/-- C8: re-running the impact-score aggregator on the same queried pairs
leaves the persisted table unchanged (replace-on-conflict, not
accumulation), the resulting table has at most one row per
`(candidate_id, race_id)` key, and every processed pair has a row. -/
theorem impact_scores_idempotent (pairs : List ImpactPair) (t : List ImpactRow)
    (h : (t.map rowKey).Nodup) :
    calculate_impact_scores pairs (calculate_impact_scores pairs t) =
      calculate_impact_scores pairs t ∧
    ((calculate_impact_scores pairs t).map rowKey).Nodup ∧
    ∀ p ∈ pairs, (p.candidate_id, p.race_id) ∈
      (calculate_impact_scores pairs t).map rowKey := by
  refine ⟨?_, calc_nodup pairs t h, pair_key_mem_calc pairs t⟩
  rw [calc_decomp pairs (calculate_impact_scores pairs t),
    calc_decomp pairs t]
  have h1 : dropKeys (pairKeys pairs)
      (dropKeys (pairKeys pairs) t ++ calculate_impact_scores pairs []) =
      dropKeys (pairKeys pairs) (dropKeys (pairKeys pairs) t) ++
        dropKeys (pairKeys pairs) (calculate_impact_scores pairs []) := by
    simp [dropKeys, List.filter_append]
  have h2 : dropKeys (pairKeys pairs) (dropKeys (pairKeys pairs) t) =
      dropKeys (pairKeys pairs) t := by
    simp [dropKeys, List.filter_filter]
  rw [h1, h2, dropKeys_calc_nil]
  simp

theorem impact_scores_idempotent_witness :
    calculate_impact_scores [⟨1, 2, some 80, some 50, false⟩]
        (calculate_impact_scores [⟨1, 2, some 80, some 50, false⟩] []) =
      calculate_impact_scores [⟨1, 2, some 80, some 50, false⟩] [] :=
  (impact_scores_idempotent [⟨1, 2, some 80, some 50, false⟩] []
    (by simp)).1

/-- C9: no ratio computation in the scoring engine divides by a
non-positive or missing denominator: routing every division through a
strict-positivity guard never trips the guard, i.e. the guarded variants
always succeed and return exactly what the unguarded code computes, with the
documented defaults substituted whenever a denominator check fails. -/
theorem division_always_guarded :
    (∀ R O C : ℚ, calculate_leverage_score_guarded R O C =
      some (calculate_leverage_score R O C)) ∧
    (∀ (cid : ℕ) (fd : FinData) (opp : Option ℚ),
      insert_campaign_finance_guarded cid fd opp =
        some (insert_campaign_finance cid fd opp)) := by
  have hlev : ∀ R O C : ℚ, calculate_leverage_score_guarded R O C =
      some (calculate_leverage_score R O C) := by
    intro R O C
    by_cases hg : R ≤ 0 ∨ O ≤ 0
    · simp [calculate_leverage_score_guarded, calculate_leverage_score, hg]
    · have hO : 0 < O := lt_of_not_le (fun h => hg (Or.inr h))
      simp [calculate_leverage_score_guarded, calculate_leverage_score, hg,
        guardedDiv, hO]
  refine ⟨hlev, ?_⟩
  intro cid fd opp
  simp only [insert_campaign_finance_guarded, insert_campaign_finance]
  by_cases h1 : 0 < pyOr fd.receipts 0 ∧ 0 < pyOr fd.individual_contributions 0
  · by_cases h2 : pyTruthy opp ∧ 0 < opp.getD 0
    · simp [h1, h2, guardedDiv, h1.1, h2.2, hlev]
    · simp [h1, h2, guardedDiv, h1.1]
  · by_cases h2 : pyTruthy opp ∧ 0 < opp.getD 0
    · simp [h1, h2, guardedDiv, h2.2, hlev]
    · simp [h1, h2]

/-- C10: the main ingestion run persists every finance record with no
opponent argument, so the derived columns `funding_gap`, `funding_ratio` and
`donation_leverage_score` are all NULL, `calculate_leverage_score` is never
invoked, and the aggregator consequently computes every overall score with
the funding-leverage component defaulted to 50. -/
theorem pipeline_leverage_never_computed :
    (∀ cands : List (ℕ × Option FinData),
      ∀ r ∈ scrape_all_data_finance cands,
        r.1.funding_gap = none ∧ r.1.funding_ratio = none ∧
        r.1.donation_leverage_score = none ∧ r.2 = false) ∧
    (∀ p : ImpactPair, p.donation_leverage_score = none →
      (impact_row p).funding_leverage_score = 50) := by
  constructor
  · intro cands r hr
    simp only [scrape_all_data_finance, List.mem_filterMap] at hr
    obtain ⟨c, _, hmap⟩ := hr
    rcases hf : c.2 with _ | fd
    · rw [hf] at hmap
      simp at hmap
    · rw [hf] at hmap
      simp only [Option.map_some'] at hmap
      rw [Option.some_inj] at hmap
      subst hmap
      simp [insert_campaign_finance, pyTruthy]
  · intro p hp
    simp [impact_row, pyOr, hp]

theorem pipeline_leverage_never_computed_witness :
    ((insert_campaign_finance 1 ⟨some 100, none, none, some 40⟩
        none).1.funding_gap = none ∧
      (insert_campaign_finance 1 ⟨some 100, none, none, some 40⟩
        none).1.funding_ratio = none ∧
      (insert_campaign_finance 1 ⟨some 100, none, none, some 40⟩
        none).1.donation_leverage_score = none ∧
      (insert_campaign_finance 1 ⟨some 100, none, none, some 40⟩
        none).2 = false) ∧
    (impact_row ⟨1, 2, none, some 40, true⟩).funding_leverage_score = 50 :=
  ⟨pipeline_leverage_never_computed.1
      [(1, some ⟨some 100, none, none, some 40⟩)] _
      (by simp [scrape_all_data_finance]),
   pipeline_leverage_never_computed.2 ⟨1, 2, none, some 40, true⟩ rfl⟩
